import Mathlib

/-!
# A verification model of the `errm` error library

This file is a shallow embedding of the Go package `errm`
(error construction with `field=value` suffixes, chain inspection, and the
`List`/`Set` aggregation containers), together with theorems checking the
package's natural-language specification against the code.

Modelling conventions:
* A Go `error` interface value is `Option GoError`: `none` is the nil
  interface.  The `GoError` universe covers every kind of error value the
  package constructs or inspects: external errors (`errors.New`-style),
  the trace-provider (eris) values produced by the construction API, the
  `errorImpl` box, and the two container composites.
* The external trace provider (the eris library) is out of scope of the
  repository; following the spec it is modelled by constructors that record
  the message and a `Nat` identity standing for the freshly captured stack
  (two separate creations have distinct identities, a reused value keeps
  its identity), and chain equality is the standard `errors.Is` walk:
  identity of a chain element with the target.
* `fmt.Sprint` of an arbitrary Go value is modelled by `GoVal`: a value is
  either a `String` (the only kind accepted as a field key) or an opaque
  value carried together with its printed rendering.
* A Go function that can panic is modelled with an `Option` result, `none`
  marking the panic; in particular `Error()` of a composite is
  `message : GoError → Option String`.
* Go map state (the `Set`) is an association list in insertion order with
  `m[k] = v` update semantics; Go slice state (the `List`) is a list.
-/

namespace errm

/-- A Go `any` value as it is consumed by the field formatter and the
format-argument machinery: either a `String`, or any other value carried
with its `fmt.Sprint` rendering (the rendering of a `String` is itself). -/
inductive GoVal where
  | str : String → GoVal
  | raw : String → GoVal
deriving DecidableEq, Repr

/-- `fmt.Sprint` of a single value (source: `buildErrorMessage`,
`fmt.Sprint(fields[i+1])`). -/
def sprint : GoVal → String
  | .str s => s
  | .raw s => s

/-- Whether a `GoVal` is a Go `string` (the `fields[i].(string)` type
assertion in `buildErrorMessage`). -/
def isStrVal : GoVal → Bool
  | .str _ => true
  | .raw _ => false

/-- The pair loop of `buildErrorMessage` (source: `part_000` lines
161-173): for each pair, a non-string key is skipped, an accepted pair
appends a space, the key, `=` and the printed value; a dangling last
element stops the loop. -/
def fieldsLoop : List GoVal → String
  | k :: v :: rest =>
    (match k with
     | .str s => " " ++ s ++ "=" ++ sprint v
     | .raw _ => "") ++ fieldsLoop rest
  | _ => ""

/-- `buildErrorMessage` (source: `part_000` lines 153-176): the base
message unchanged when fewer than two field elements are given, otherwise
the base followed by the rendered pairs.  (`fieldAverageLength` only
pre-sizes the builder and has no semantic effect.) -/
def buildErrorMessage (baseErr : String) (fields : List GoVal) : String :=
  if fields.length < 2 then baseErr else baseErr ++ fieldsLoop fields

/-- `strings.Count(msg, "%")` (source: `separateArgsAndFields`): the naive
count of `%` characters. -/
def countPercent (msg : String) : Nat :=
  msg.data.count (Char.ofNat 37)

/-- `separateArgsAndFields` (source: `part_000` lines 178-189): with no
`%` in the message everything is fields; with at most as many `%` as args
the args are split at the count; otherwise no split happens (all args kept
as format args, no fields). -/
def separateArgsAndFields (msg : String) (args : List GoVal) :
    List GoVal × List GoVal :=
  let numberOfFormats := countPercent msg
  if numberOfFormats = 0 then ([], args)
  else if numberOfFormats ≤ args.length then
    (args.take numberOfFormats, args.drop numberOfFormats)
  else (args, [])

/-- Modelled from the spec: the trace provider's formatter
(`fmt.Sprintf` inside `eris.Errorf`/`eris.Wrapf`) is an external
collaborator (spec section 6); no claim in this development depends on its
output, so it is modelled as the format string followed by the renderings
of the arguments. -/
def goSprintf (f : String) (args : List GoVal) : String :=
  args.foldl (fun acc a => acc ++ " " ++ sprint a) f

mutual
/-- The universe of Go `error` values handled by the package.
* `base id msg`: an external error (`errors.New` style) with identity `id`.
* `eNew id msg`: a trace-provider root from `eris.New(msg)`; `id` is the
  fresh stack identity.
* `basef id f args`: a trace-provider root from `eris.Errorf(f, args...)`
  (the format string is kept unevaluated together with its arguments).
* `eWrap c id msg`: `eris.Wrap(c, msg)`, a wrap layer over the chain `c`.
* `eWrapf c id f args`: `eris.Wrapf(c, f, args...)`.
* `impl t`: the package's `errorImpl` box around a trace-provider value.
* `listC errs`: the `listError` composite viewing a `List`'s slice.
* `setC entries`: the `setError` composite viewing a `Set`'s map. -/
inductive GoError where
  | base : Nat → String → GoError
  | eNew : Nat → String → GoError
  | basef : Nat → String → List GoVal → GoError
  | eWrap : GoError → Nat → String → GoError
  | eWrapf : GoError → Nat → String → List GoVal → GoError
  | impl : GoError → GoError
  | listC : ErrList → GoError
  | setC : SetEntries → GoError
deriving DecidableEq, Repr

/-- The `List` container's slice of errors (`List.errs []error`; `Add`
filters nil, so the stored members are never nil). -/
inductive ErrList where
  | nil : ErrList
  | cons : GoError → ErrList → ErrList
deriving DecidableEq, Repr

/-- The `Set` container's map (`Set.errs map[string]error`), as an
association list from rendered message to stored error, in insertion
order. -/
inductive SetEntries where
  | nil : SetEntries
  | cons : String → GoError → SetEntries → SetEntries
deriving DecidableEq, Repr
end

/-- The `List` slice as a Lean list, for specification statements. -/
def toListL : ErrList → List GoError
  | .nil => []
  | .cons g rest => g :: toListL rest

/-- The `Set` map as a Lean list of key/value pairs. -/
def toListS : SetEntries → List (String × GoError)
  | .nil => []
  | .cons k g rest => (k, g) :: toListS rest

/-- `len` of the `List`'s slice. -/
def listLen (l : ErrList) : Nat := (toListL l).length

/-- `len` of the `Set`'s map (keys are kept distinct by `assocSetS`). -/
def setLen (s : SetEntries) : Nat := (toListS s).length

/-- `append` of one error to the `List`'s slice. -/
def appendL (l : ErrList) (g : GoError) : ErrList :=
  match l with
  | .nil => .cons g .nil
  | .cons g0 rest => .cons g0 (appendL rest g)

mutual
/-- The `Error()` method of a Go error value, `none` marking a panic.
Sources: `errorImpl.Error` (delegates to the eris value), eris rendering
(`wrap` renders as `"msg: cause"`), `listError.Error` and `setError.Error`
(`list.go` lines 204-209, `part_000` lines 418-427): an empty container
renders as `""`, otherwise `JoinErrors(members...).Error()` — which
panics (`none`) when every member message is empty, because `JoinErrors`
then returns nil. -/
def message : GoError → Option String
  | .base _ m => some m
  | .eNew _ m => some m
  | .basef _ f args => some (goSprintf f args)
  | .eWrap c _ m => (message c).map (fun cm => m ++ ": " ++ cm)
  | .eWrapf c _ f args => (message c).map (fun cm => goSprintf f args ++ ": " ++ cm)
  | .impl t => message t
  | .listC es =>
    match es with
    | .nil => some ""
    | .cons g rest =>
      match joinL (.cons g rest) 0 "" with
      | none => none
      | some b => if b.length > 0 then some b else none
  | .setC es =>
    match es with
    | .nil => some ""
    | .cons k g rest =>
      match joinS (.cons k g rest) 0 "" with
      | none => none
      | some b => if b.length > 0 then some b else none

/-- The accumulation loop of `JoinErrors` (source: `part_000` lines
198-210) applied to the members of a `List` composite: nil members cannot
occur; an empty message is skipped; the separator `"; "` is appended
exactly when the positional index is larger than zero. -/
def joinL : ErrList → Nat → String → Option String
  | .nil, _, b => some b
  | .cons g rest, i, b =>
    match message g with
    | none => none
    | some m =>
      if m = "" then joinL rest (i + 1) b
      else joinL rest (i + 1) (b ++ (if 0 < i then "; " else "") ++ m)

/-- The accumulation loop of `JoinErrors` applied to the values of a
`Set` composite (map iteration is modelled in insertion order). -/
def joinS : SetEntries → Nat → String → Option String
  | .nil, _, b => some b
  | .cons _ g rest, i, b =>
    match message g with
    | none => none
    | some m =>
      if m = "" then joinS rest (i + 1) b
      else joinS rest (i + 1) (b ++ (if 0 < i then "; " else "") ++ m)
end

/-- `unwrap` (source: `part_000` lines 143-149): strip the `errorImpl`
box, otherwise return the error unchanged (`eris.As` finds an
`errorImpl` only when the value is one, in the universe built by this
package). -/
def unwrapE : GoError → GoError
  | .impl t => t
  | g => g

/-- `unwrap` on a Go interface value (nil stays nil). -/
def unwrapOpt : Option GoError → Option GoError
  | none => none
  | some g => some (unwrapE g)

/-- The unwrap chain of an error as walked by `errors.Is`: wrap layers
expose their cause, every other value is its own chain.  Modelled from the
spec: the trace provider supplies chain-walking primitives equivalent to
standard `errors.Is` semantics (spec sections 1 and 6). -/
def erisChain : GoError → List GoError
  | .eWrap c id m => .eWrap c id m :: erisChain c
  | .eWrapf c id f args => .eWrapf c id f args :: erisChain c
  | g => [g]

/-- `eris.Is` between Go interface values: `Is(nil, nil)` is true, nil on
one side only is false, otherwise the target must occur in the unwrap
chain of the error. -/
def erisIs (a b : Option GoError) : Bool :=
  match a, b with
  | none, none => true
  | some x, some y => decide (y ∈ erisChain x)
  | _, _ => false

/-- `New` (source: `part_000` lines 55-58): a fresh eris root (`id` is
the fresh stack identity) over the field-formatted message, boxed in
`errorImpl`. -/
def New (id : Nat) (msg : String) (fields : List GoVal) : GoError :=
  .impl (.eNew id (buildErrorMessage msg fields))

/-- `Errorf` (source: `part_000` lines 60-67): split the arguments by the
placeholder count; with no format arguments fall through to `New` with
the fields, otherwise build `eris.Errorf(buildErrorMessage(msg, fields),
args...)`. -/
def Errorf (id : Nat) (msg : String) (args : List GoVal) : GoError :=
  let p := separateArgsAndFields msg args
  if p.1 = [] then New id msg p.2
  else .impl (.basef id (buildErrorMessage msg p.2) p.1)

/-- `Wrap` (source: `part_000` lines 71-76): on nil behave as `New`,
otherwise wrap the unwrapped cause under the field-formatted message. -/
def Wrap (id : Nat) (err : Option GoError) (msg : String)
    (fields : List GoVal) : GoError :=
  match err with
  | none => New id msg fields
  | some e => .impl (.eWrap (unwrapE e) id (buildErrorMessage msg fields))

/-- `Wrapf` (source: `part_000` lines 80-89): on nil behave as `Errorf`;
otherwise split the arguments; when no format arguments remain, fall
through to `Wrap` passing the (empty) post-split args in the fields
position; otherwise build `eris.Wrapf`. -/
def Wrapf (id : Nat) (err : Option GoError) (msg : String)
    (args : List GoVal) : GoError :=
  match err with
  | none => Errorf id msg args
  | some e =>
    let p := separateArgsAndFields msg args
    if p.1 = [] then Wrap id (some e) msg p.1
    else .impl (.eWrapf (unwrapE e) id (buildErrorMessage msg p.2) p.1)

mutual
/-- `Is` with a single target (`errm.Is(err, target)` with no extra
targets) for a non-nil first argument (source: `part_000` lines 91-111):
a `Set` composite delegates to the set's `Has`, a `List` composite to the
list's `Has`, everything else is eris chain equality of the unwrapped
sides. -/
def isOne : GoError → Option GoError → Bool
  | .setC entries, target => hasOneS entries target
  | .listC errs, target => hasOneL errs target
  | g, target => erisIs (some (unwrapE g)) (unwrapOpt target)

/-- `List.Has(target)` with no extra targets (source: `list.go` lines
54-66): scan the members, true on the first member matching under `Is`. -/
def hasOneL : ErrList → Option GoError → Bool
  | .nil, _ => false
  | .cons g rest, target => isOne g target || hasOneL rest target

/-- `Set.Has(target)` with no extra targets (source: `part_000` lines
280-293): scan the stored values, true on the first value matching under
`Is`. -/
def hasOneS : SetEntries → Option GoError → Bool
  | .nil, _ => false
  | .cons _ g rest, target => isOne g target || hasOneS rest target
end

/-- `List.Has(target, extra...)` (source: `list.go` lines 54-66): for
each member, first `Is(member, target)`, then `Is(member, t)` for each
extra target in order, before moving to the next member. -/
def hasManyL : ErrList → Option GoError → List (Option GoError) → Bool
  | .nil, _, _ => false
  | .cons g rest, target, ts =>
    isOne g target || ts.any (fun t => isOne g t) || hasManyL rest target ts

/-- `Set.Has(target, extra...)` (source: `part_000` lines 280-293). -/
def hasManyS : SetEntries → Option GoError → List (Option GoError) → Bool
  | .nil, _, _ => false
  | .cons _ g rest, target, ts =>
    isOne g target || ts.any (fun t => isOne g t) || hasManyS rest target ts

/-- `errm.Is(err, target, targets...)` (source: `part_000` lines 91-111):
dispatch on the dynamic type of `err` — a `Set` composite delegates to
`Set.Has`, a `List` composite to `List.Has` — otherwise eris chain
equality of the unwrapped sides, retried against each extra target when
the first comparison fails. -/
def Is (err target : Option GoError) (targets : List (Option GoError)) : Bool :=
  match err with
  | some (.setC entries) => hasManyS entries target targets
  | some (.listC errs) => hasManyL errs target targets
  | _ =>
    erisIs (unwrapOpt err) (unwrapOpt target) ||
      targets.any (fun t => erisIs (unwrapOpt err) (unwrapOpt t))

/-- The byte-building loop of `JoinErrors` (source: `part_000` lines
197-210) over a Go slice of possibly-nil errors: nil entries and entries
with an empty message are skipped; the separator `"; "` is appended
before an accepted message exactly when its positional index is larger
than zero; a member whose own `Error()` panics propagates the panic
(`none`). -/
def joinBuild : List (Option GoError) → Nat → String → Option String
  | [], _, b => some b
  | none :: rest, i, b => joinBuild rest (i + 1) b
  | some g :: rest, i, b =>
    match message g with
    | none => none
    | some m =>
      if m = "" then joinBuild rest (i + 1) b
      else joinBuild rest (i + 1) (b ++ (if 0 < i then "; " else "") ++ m)

/-- `JoinErrors` (source: `part_000` lines 196-215): build the joined
text; return nil (`some none`) when it is empty, otherwise a fresh error
over it via `New` (`id` is the fresh stack identity); the outer `Option`
marks a panic raised by a member's `Error()`. -/
def JoinErrors (id : Nat) (errs : List (Option GoError)) :
    Option (Option GoError) :=
  (joinBuild errs 0 "").map
    (fun b => if b.length > 0 then some (New id b []) else none)

/-- `NewList` (source: `list.go` lines 15-17). -/
def listNew : ErrList := .nil

/-- `List.Add` (source: `list.go` lines 26-31): append, no-op on nil. -/
def listAdd (l : ErrList) (err : Option GoError) : ErrList :=
  match err with
  | none => l
  | some g => appendL l g

/-- `List.Err` (source: `list.go` lines 69-74): nil when empty, the
`listError` composite otherwise. -/
def listErr (l : ErrList) : Option GoError :=
  if listLen l = 0 then none else some (.listC l)

/-- `List.Empty` (source: `list.go` lines 77-79). -/
def listEmpty (l : ErrList) : Bool := listLen l = 0

/-- `List.NotEmpty` (source: `list.go` lines 82-84). -/
def listNotEmpty (l : ErrList) : Bool := listLen l ≠ 0

/-- `List.Clear` (source: `list.go` lines 87-89): reset to the empty
slice. -/
def listClear (_ : ErrList) : ErrList := .nil

/-- The key under which the `Set` stores an error: its rendered message
(`err.Error()`); the construction-API results stored by the convenience
methods always render, so the default is never reached for them. -/
def errKey (g : GoError) : String := (message g).getD ""

/-- The Go map update `m[k] = v` on the association list: replace the
binding of an existing key in place, otherwise append a new binding. -/
def assocSetS (s : SetEntries) (k : String) (v : GoError) : SetEntries :=
  match s with
  | .nil => .cons k v .nil
  | .cons k0 v0 rest =>
    if k0 = k then .cons k v rest else .cons k0 v0 (assocSetS rest k v)

/-- Go map membership of a key. -/
def keyMemS (s : SetEntries) (k : String) : Bool :=
  match s with
  | .nil => false
  | .cons k0 _ rest => k0 = k || keyMemS rest k

/-- Go map lookup of a key. -/
def lookupS (s : SetEntries) (k : String) : Option GoError :=
  match s with
  | .nil => none
  | .cons k0 v rest => if k0 = k then some v else lookupS rest k

/-- `NewSet` (source: `part_000` lines 233-235). -/
def setNew : SetEntries := .nil

/-- `Set.Add` (source: `part_000` lines 245-250): no-op on nil, otherwise
store under the rendered message (`err.Error()` is the map key); the
`Option` result marks the panic raised when the added error's own
`Error()` panics. -/
def setAdd (s : SetEntries) (err : Option GoError) : Option SetEntries :=
  match err with
  | none => some s
  | some g => (message g).map (fun k => assocSetS s k g)

/-- `Set.Err` (source: `part_000` lines 296-301): nil when empty, the
`setError` composite otherwise. -/
def setErr (s : SetEntries) : Option GoError :=
  if setLen s = 0 then none else some (.setC s)

/-- `Set.Empty` (source: `part_000` lines 304-306). -/
def setEmpty (s : SetEntries) : Bool := setLen s = 0

/-- `Set.Clear` (source: `part_000` lines 309-311): replace the map with
a fresh empty one. -/
def setClear (_ : SetEntries) : SetEntries := .nil

/-- `List.New` (source: `list.go` lines 34-36): construct via `New` and
append. -/
def listNewOp (id : Nat) (l : ErrList) (msg : String)
    (fields : List GoVal) : ErrList :=
  appendL l (New id msg fields)

/-- `List.Errorf` (source: `list.go` lines 39-41): construct via `Errorf`
and append. -/
def listErrorfOp (id : Nat) (l : ErrList) (msg : String)
    (args : List GoVal) : ErrList :=
  appendL l (Errorf id msg args)

/-- `List.Wrap` (source: `list.go` lines 44-46). -/
def listWrapOp (id : Nat) (l : ErrList) (err : Option GoError)
    (msg : String) (fields : List GoVal) : ErrList :=
  appendL l (Wrap id err msg fields)

/-- `List.Wrapf` (source: `list.go` lines 49-51): construct via `Wrapf`
and append. -/
def listWrapfOp (id : Nat) (l : ErrList) (err : Option GoError)
    (msg : String) (args : List GoVal) : ErrList :=
  appendL l (Wrapf id err msg args)

/-- `Set.New` (source: `part_000` lines 254-257): construct via `New` and
store under its rendered message. -/
def setNewOp (id : Nat) (s : SetEntries) (msg : String)
    (fields : List GoVal) : SetEntries :=
  assocSetS s (errKey (New id msg fields)) (New id msg fields)

/-- `Set.Errorf` (source: `part_000` lines 261-264): construct via
`Errorf` and store under its rendered message. -/
def setErrorfOp (id : Nat) (s : SetEntries) (msg : String)
    (args : List GoVal) : SetEntries :=
  assocSetS s (errKey (Errorf id msg args)) (Errorf id msg args)

/-- `Set.Wrap` (source: `part_000` lines 268-271). -/
def setWrapOp (id : Nat) (s : SetEntries) (err : Option GoError)
    (msg : String) (fields : List GoVal) : SetEntries :=
  assocSetS s (errKey (Wrap id err msg fields)) (Wrap id err msg fields)

/-- `Set.Wrapf` (source: `part_000` lines 275-278): construct via `Wrapf`
and store under its rendered message. -/
def setWrapfOp (id : Nat) (s : SetEntries) (err : Option GoError)
    (msg : String) (args : List GoVal) : SetEntries :=
  assocSetS s (errKey (Wrapf id err msg args)) (Wrapf id err msg args)

/-!
The `SafeList`/`SafeSet` twins (source: `list.go` lines 98-200,
`part_000` lines 318-414) hold a mutex and the plain container; every
method locks, performs the plain operation, and unlocks.  In this
sequential model the lock has no observable effect, so each method is the
corresponding plain operation; note that `SafeList.Has` and `SafeSet.Has`
accept a single target (no extra targets) and delegate with none.
-/

/-- `SafeList.Add` (source: `list.go` lines 121-125). -/
def safeListAdd (l : ErrList) (err : Option GoError) : ErrList := listAdd l err

/-- `SafeList.Has` (source: `list.go` lines 160-164): a single target,
delegated to `List.Has` with no extra targets. -/
def safeListHas (l : ErrList) (target : Option GoError) : Bool :=
  hasManyL l target []

/-- `SafeList.Err` (source: `list.go` lines 182-186). -/
def safeListErr (l : ErrList) : Option GoError := listErr l

/-- `SafeList.Empty` (source: `list.go` lines 167-171). -/
def safeListEmpty (l : ErrList) : Bool := listEmpty l

/-- `SafeList.NotEmpty` (source: `list.go` lines 174-178). -/
def safeListNotEmpty (l : ErrList) : Bool := listNotEmpty l

/-- `SafeList.Clear` (source: `list.go` lines 189-193). -/
def safeListClear (l : ErrList) : ErrList := listClear l

/-- `SafeList.Len` (source: `list.go` lines 196-200). -/
def safeListLen (l : ErrList) : Nat := listLen l

/-- `SafeList.New` (source: `list.go` lines 129-133). -/
def safeListNewOp (id : Nat) (l : ErrList) (msg : String)
    (fields : List GoVal) : ErrList :=
  listNewOp id l msg fields

/-- `SafeList.Errorf` (source: `list.go` lines 137-141). -/
def safeListErrorfOp (id : Nat) (l : ErrList) (msg : String)
    (args : List GoVal) : ErrList :=
  listErrorfOp id l msg args

/-- `SafeList.Wrap` (source: `list.go` lines 145-149). -/
def safeListWrapOp (id : Nat) (l : ErrList) (err : Option GoError)
    (msg : String) (fields : List GoVal) : ErrList :=
  listWrapOp id l err msg fields

/-- `SafeList.Wrapf` (source: `list.go` lines 153-157). -/
def safeListWrapfOp (id : Nat) (l : ErrList) (err : Option GoError)
    (msg : String) (args : List GoVal) : ErrList :=
  listWrapfOp id l err msg args

/-- `SafeSet.Add` (source: `part_000` lines 342-346). -/
def safeSetAdd (s : SetEntries) (err : Option GoError) : Option SetEntries :=
  setAdd s err

/-- `SafeSet.Has` (source: `part_000` lines 381-385): a single target,
delegated to `Set.Has` with no extra targets. -/
def safeSetHas (s : SetEntries) (target : Option GoError) : Bool :=
  hasManyS s target []

/-- `SafeSet.Err` (source: `part_000` lines 396-400). -/
def safeSetErr (s : SetEntries) : Option GoError := setErr s

/-- `SafeSet.Empty` (source: `part_000` lines 388-392). -/
def safeSetEmpty (s : SetEntries) : Bool := setEmpty s

/-- `SafeSet.Clear` (source: `part_000` lines 403-407). -/
def safeSetClear (s : SetEntries) : SetEntries := setClear s

/-- `SafeSet.Len` (source: `part_000` lines 410-414). -/
def safeSetLen (s : SetEntries) : Nat := setLen s

/-- `SafeSet.New` (source: `part_000` lines 350-354). -/
def safeSetNewOp (id : Nat) (s : SetEntries) (msg : String)
    (fields : List GoVal) : SetEntries :=
  setNewOp id s msg fields

/-- `SafeSet.Errorf` (source: `part_000` lines 358-362). -/
def safeSetErrorfOp (id : Nat) (s : SetEntries) (msg : String)
    (args : List GoVal) : SetEntries :=
  setErrorfOp id s msg args

/-- `SafeSet.Wrap` (source: `part_000` lines 366-370). -/
def safeSetWrapOp (id : Nat) (s : SetEntries) (err : Option GoError)
    (msg : String) (fields : List GoVal) : SetEntries :=
  setWrapOp id s err msg fields

/-- `SafeSet.Wrapf` (source: `part_000` lines 374-378). -/
def safeSetWrapfOp (id : Nat) (s : SetEntries) (err : Option GoError)
    (msg : String) (args : List GoVal) : SetEntries :=
  setWrapfOp id s err msg args

/-! Specification-side vocabulary used to state the claims. -/

/-- Joining a list of messages with `"; "` between consecutive entries
(no leading or trailing separator): the join the specification
describes. -/
def joinWithSemis : List String → String
  | [] => ""
  | [m] => m
  | m :: rest => m ++ "; " ++ joinWithSemis rest

/-- All messages with a `"; "` separator in front of each (the shape the
`JoinErrors` loop produces for every accepted message at positional index
larger than zero). -/
def semiAll : List String → String
  | [] => ""
  | m :: rest => "; " ++ m ++ semiAll rest

/-- The messages `JoinErrors` accepts from a slice: non-nil members whose
rendered message is non-empty, in order. -/
def acceptedO (errs : List (Option GoError)) : List String :=
  errs.filterMap
    (fun e => e.bind (fun g => (message g).bind
      (fun m => if m = "" then none else some m)))

/-- Whether the first slice entry is already an accepted message (then no
leading separator is produced). -/
def firstAccO : List (Option GoError) → Bool
  | some g :: _ => ((message g).getD "") ≠ ""
  | _ => false

/-- Whether every non-nil member of a slice has a non-panicking
`Error()`. -/
def okMsgs (errs : List (Option GoError)) : Bool :=
  errs.all (fun e => match e with
    | none => true
    | some g => (message g).isSome)

/-- The text `JoinErrors` builds from a slice, described at the
specification level: empty when nothing is accepted, otherwise the
`"; "`-join of the accepted messages, with a leading `"; "` exactly when
the first accepted message does not sit at positional index zero. -/
def joinedText (errs : List (Option GoError)) : String :=
  if acceptedO errs = [] then ""
  else (if firstAccO errs then "" else "; ") ++ joinWithSemis (acceptedO errs)

/-- Whether an error value is one of the two container composites. -/
def isComposite : GoError → Bool
  | .setC _ => true
  | .listC _ => true
  | _ => false

/-- Modelled from the claim wording of the `Errorf` contract: N is the
naive `%` count; zero placeholders means all args are field pairs (fall
through to `New`); fewer args than N means all args become format
arguments with no fields; otherwise the first N args are format
arguments and the rest are field pairs.  Used only to compare the claim
against the code. -/
def ErrorfClaim (id : Nat) (msg : String) (args : List GoVal) : GoError :=
  let n := countPercent msg
  if n = 0 then New id msg args
  else if args.length < n then .impl (.basef id msg args)
  else .impl (.basef id (buildErrorMessage msg (args.drop n)) (args.take n))

/-! Helper lemmas. -/

theorem fieldsLoop_short : ∀ (fields : List GoVal), fields.length < 2 →
    fieldsLoop fields = ""
  | [], _ => rfl
  | [_], _ => rfl
  | _ :: _ :: _, h => by simp only [List.length_cons] at h; omega

theorem fieldsLoop_odd : ∀ (fields : List GoVal), fields.length % 2 = 1 →
    fieldsLoop fields = fieldsLoop fields.dropLast
  | [], h => by simp at h
  | [_], _ => rfl
  | a :: b :: rest, h => by
    have hr : rest.length % 2 = 1 := by
      simp only [List.length_cons] at h; omega
    have hne : rest ≠ [] := by
      intro he; subst he; simp at hr
    rw [List.dropLast_cons_of_ne_nil (List.cons_ne_nil _ _),
        List.dropLast_cons_of_ne_nil hne]
    simp only [fieldsLoop]
    rw [fieldsLoop_odd rest hr]

/-! Claim C5. -/

/-- C5: the field formatter returns the base unchanged on fewer than two
elements; an odd-length sequence renders as the sequence without its
trailing element; a pair with a non-string key contributes nothing while
the rest of the sequence is still processed; an accepted pair appends
` key=value` and the scan continues in order. -/
theorem c5_formatter :
    (∀ (base : String) (fields : List GoVal), fields.length < 2 →
      buildErrorMessage base fields = base) ∧
    (∀ (base : String) (fields : List GoVal), fields.length % 2 = 1 →
      buildErrorMessage base fields = buildErrorMessage base fields.dropLast) ∧
    (∀ (base : String) (k v : GoVal) (rest : List GoVal), isStrVal k = false →
      buildErrorMessage base (k :: v :: rest) = buildErrorMessage base rest) ∧
    (∀ (base s : String) (v : GoVal) (rest : List GoVal),
      buildErrorMessage base (.str s :: v :: rest) =
        buildErrorMessage (base ++ " " ++ s ++ "=" ++ sprint v) rest) := by
  refine ⟨fun base fields h => by simp [buildErrorMessage, h], ?_, ?_, ?_⟩
  · intro base fields h
    match fields, h with
    | [_], _ => rfl
    | a :: b :: rest, h =>
      have hlen : 2 ≤ (a :: b :: rest).length := by simp
      have hlen2 : 2 ≤ ((a :: b :: rest).dropLast).length := by
        rw [List.length_dropLast]
        simp only [List.length_cons] at h ⊢
        omega
      rw [buildErrorMessage, buildErrorMessage, if_neg (by omega), if_neg (by omega),
          fieldsLoop_odd _ h]
  · intro base k v rest h
    cases k with
    | str s => simp [isStrVal] at h
    | raw r =>
      by_cases hr : rest.length < 2
      · rw [buildErrorMessage, if_neg (by simp), buildErrorMessage, if_pos hr]
        simp [fieldsLoop, fieldsLoop_short rest hr]
      · rw [buildErrorMessage, if_neg (by simp), buildErrorMessage, if_neg hr]
        simp [fieldsLoop]
  · intro base s v rest
    by_cases hr : rest.length < 2
    · rw [buildErrorMessage, if_neg (by simp), buildErrorMessage, if_pos hr]
      simp [fieldsLoop, fieldsLoop_short rest hr, String.append_assoc]
    · rw [buildErrorMessage, if_neg (by simp), buildErrorMessage, if_neg hr]
      simp [fieldsLoop, String.append_assoc]

/-- Witness for C5 at concrete inputs. -/
theorem c5_formatter_witness :
    buildErrorMessage "base" [.str "lone"] = "base" ∧
    buildErrorMessage "b" [.str "k", .str "v", .str "dangling"] =
      buildErrorMessage "b" [.str "k", .str "v"] ∧
    buildErrorMessage "b" [.raw "7", .str "v", .str "k2", .str "v2"] =
      buildErrorMessage "b" [.str "k2", .str "v2"] ∧
    buildErrorMessage "b" [.str "k", .str "v"] =
      buildErrorMessage ("b" ++ " " ++ "k" ++ "=" ++ sprint (.str "v")) [] :=
  ⟨c5_formatter.1 "base" [.str "lone"] (by decide),
   c5_formatter.2.1 "b" [.str "k", .str "v", .str "dangling"] (by decide),
   c5_formatter.2.2.1 "b" (.raw "7") (.str "v") [.str "k2", .str "v2"] (by decide),
   c5_formatter.2.2.2 "b" "k" (.str "v") []⟩

/-! Claim C1. -/

/-- C1: evaluation of the code at the failing input: a `List` (and a
`Set`) holding one error whose rendered message is empty has a composite
whose `Error()` panics — `JoinErrors` over the members returns nil and
`nil.Error()` is a nil dereference (`none` in this model), contradicting
the no-panic claim. -/
theorem c1_panic_eval :
    message (.listC (.cons (New 0 "" []) .nil)) = none ∧
    message (.setC (.cons "" (New 0 "" []) .nil)) = none := by decide

/-! Claim C3. -/

/-- C3 counterexample: with a non-nil cause and a `%`-free message,
`Wrapf` is not `Wrap` applied to the unsplit args — the args are
discarded (the fields `k=v` do not appear in the message). -/
theorem c3_cex :
    Wrapf 5 (some (.base 1 "e")) "ctx" [.str "k", .str "v"] ≠
      Wrap 5 (some (.base 1 "e")) "ctx" [.str "k", .str "v"] := by decide

/-- C3 as amended: with a non-nil cause and a message without `%`,
`Wrapf` falls through to `Wrap` with no variadic arguments at all (the
post-split empty slice), so the args are discarded entirely; on a nil
cause `Wrapf` behaves as `Errorf`. -/
theorem c3_fallback (id : Nat) (e : GoError) (msg : String) (args : List GoVal)
    (h : countPercent msg = 0) :
    Wrapf id (some e) msg args = Wrap id (some e) msg [] ∧
    Wrapf id none msg args = Errorf id msg args := by
  constructor
  · simp [Wrapf, separateArgsAndFields, h]
  · rfl

/-- Witness for C3 at concrete inputs. -/
theorem c3_fallback_witness :
    Wrapf 5 (some (.base 1 "e")) "ctx" [.str "k", .str "v"] =
      Wrap 5 (some (.base 1 "e")) "ctx" [] ∧
    Wrapf 5 none "ctx" [.str "k", .str "v"] =
      Errorf 5 "ctx" [.str "k", .str "v"] :=
  c3_fallback 5 (.base 1 "e") "ctx" [.str "k", .str "v"] (by decide)

/-! Claim C6. -/

/-- C6 counterexample: with a placeholder in the message and an empty
argument list the code falls through to `New` (no formatted
construction), while the claim's reading performs a formatted
construction with zero format arguments; the two are observably
different (`fmt.Sprintf` still processes verbs on missing arguments). -/
theorem c6_cex : Errorf 0 "a %s" [] ≠ ErrorfClaim 0 "a %s" [] := by decide

/-- C6 as amended: `Errorf` counts `%` characters naively; with zero
placeholders all args are field pairs (fall through to `New`); with an
empty arg list it falls through to `New` with no fields regardless of the
count; with a non-empty arg list shorter than the count, all args become
format arguments and no fields are extracted; otherwise the first N args
are format arguments and the rest are field pairs. -/
theorem c6_split (id : Nat) (msg : String) (args : List GoVal) :
    (countPercent msg = 0 → Errorf id msg args = New id msg args) ∧
    (args = [] → Errorf id msg args = New id msg []) ∧
    (0 < args.length → args.length < countPercent msg →
      Errorf id msg args = .impl (.basef id msg args)) ∧
    (0 < countPercent msg → countPercent msg ≤ args.length →
      Errorf id msg args =
        .impl (.basef id
          (buildErrorMessage msg (args.drop (countPercent msg)))
          (args.take (countPercent msg)))) := by
  refine ⟨?_, ?_, ?_, ?_⟩
  · intro h; simp [Errorf, separateArgsAndFields, h]
  · intro h; subst h
    by_cases h0 : countPercent msg = 0
    · simp [Errorf, separateArgsAndFields, h0]
    · simp [Errorf, separateArgsAndFields, h0, Nat.le_zero]
  · intro h1 h2
    have hne : args ≠ [] := by intro he; subst he; simp at h1
    simp [Errorf, separateArgsAndFields, show countPercent msg ≠ 0 by omega,
      show ¬ countPercent msg ≤ args.length by omega, hne, buildErrorMessage]
  · intro h1 h2
    have hne : args.take (countPercent msg) ≠ [] := by
      simp [List.take_eq_nil_iff]
      constructor
      · omega
      · intro he; subst he; simp at h2; omega
    simp [Errorf, separateArgsAndFields, show countPercent msg ≠ 0 by omega, h2, hne]

/-- Witness for C6 at concrete inputs, one per branch. -/
theorem c6_split_witness :
    Errorf 1 "x" [.str "k", .str "v"] = New 1 "x" [.str "k", .str "v"] ∧
    Errorf 1 "a %s" [] = New 1 "a %s" [] ∧
    Errorf 1 "%d %d %d" [.raw "3"] = .impl (.basef 1 "%d %d %d" [.raw "3"]) ∧
    Errorf 1 "x %d" [.raw "3", .str "k", .str "v"] =
      .impl (.basef 1
        (buildErrorMessage "x %d"
          ([GoVal.raw "3", .str "k", .str "v"].drop (countPercent "x %d")))
        ([GoVal.raw "3", .str "k", .str "v"].take (countPercent "x %d"))) :=
  ⟨(c6_split 1 "x" [.str "k", .str "v"]).1 (by decide),
   (c6_split 1 "a %s" []).2.1 rfl,
   (c6_split 1 "%d %d %d" [.raw "3"]).2.2.1 (by decide) (by decide),
   (c6_split 1 "x %d" [.raw "3", .str "k", .str "v"]).2.2.2 (by decide) (by decide)⟩

/-! Claim C7. -/

theorem keyMemS_assocSetS : ∀ (s : SetEntries) (k : String) (v : GoError),
    keyMemS (assocSetS s k v) k = true
  | .nil, k, v => by simp [assocSetS, keyMemS]
  | .cons k0 v0 rest, k, v => by
    by_cases h : k0 = k <;>
      simp [assocSetS, keyMemS, h, keyMemS_assocSetS rest k v]

theorem setLen_assocSetS : ∀ (s : SetEntries) (k : String) (v : GoError),
    setLen (assocSetS s k v) =
      if keyMemS s k then setLen s else setLen s + 1
  | .nil, k, v => by simp [assocSetS, keyMemS, setLen, toListS]
  | .cons k0 v0 rest, k, v => by
    by_cases h : k0 = k
    · simp [assocSetS, keyMemS, h, setLen, toListS]
    · have ih := setLen_assocSetS rest k v
      have e1 : assocSetS (.cons k0 v0 rest) k v =
          .cons k0 v0 (assocSetS rest k v) := by simp [assocSetS, h]
      have e2 : keyMemS (.cons k0 v0 rest) k = keyMemS rest k := by
        simp [keyMemS, h]
      have e3 : ∀ (k1 : String) (v1 : GoError) (t : SetEntries),
          setLen (.cons k1 v1 t) = setLen t + 1 := fun _ _ _ => rfl
      rw [e1, e3, e2, ih]
      simp only [e3]
      split <;> rfl

theorem lookupS_assocSetS : ∀ (s : SetEntries) (k : String) (v : GoError),
    lookupS (assocSetS s k v) k = some v
  | .nil, k, v => by simp [assocSetS, lookupS]
  | .cons k0 v0 rest, k, v => by
    by_cases h : k0 = k <;>
      simp [assocSetS, lookupS, h, lookupS_assocSetS rest k v]

theorem listLen_appendL : ∀ (l : ErrList) (g : GoError),
    listLen (appendL l g) = listLen l + 1
  | .nil, g => rfl
  | .cons g0 rest, g => by
    have ih := listLen_appendL rest g
    simp only [appendL, listLen, toListL, List.length_cons] at ih ⊢
    omega

/-- C7: adding two errors with the same rendered message to a `Set` grows
`Len` by at most one (the second add leaves the length unchanged, and the
stored value is the last write); `List.Add` of a non-nil error always
grows `Len` by exactly one; `Add` of nil is a no-op on both containers. -/
theorem c7_dedup (s : SetEntries) (l : ErrList) (g1 g2 g : GoError)
    (m : String) (h1 : message g1 = some m) (h2 : message g2 = some m) :
    setAdd s (some g1) = some (assocSetS s m g1) ∧
    setAdd (assocSetS s m g1) (some g2) =
      some (assocSetS (assocSetS s m g1) m g2) ∧
    setLen (assocSetS (assocSetS s m g1) m g2) = setLen (assocSetS s m g1) ∧
    setLen (assocSetS s m g1) ≤ setLen s + 1 ∧
    lookupS (assocSetS (assocSetS s m g1) m g2) m = some g2 ∧
    setAdd s none = some s ∧
    listLen (listAdd l (some g)) = listLen l + 1 ∧
    listAdd l none = l := by
  refine ⟨by simp [setAdd, h1], by simp [setAdd, h2], ?_, ?_,
    lookupS_assocSetS _ _ _, rfl, listLen_appendL l g, rfl⟩
  · rw [setLen_assocSetS, keyMemS_assocSetS, if_pos rfl]
  · rw [setLen_assocSetS]; split <;> omega

/-- Witness for C7 at concrete inputs. -/
theorem c7_dedup_witness :
    setAdd .nil (some (.base 1 "A")) =
      some (assocSetS .nil "A" (.base 1 "A")) ∧
    setAdd (assocSetS .nil "A" (.base 1 "A")) (some (.base 2 "A")) =
      some (assocSetS (assocSetS .nil "A" (.base 1 "A")) "A" (.base 2 "A")) ∧
    setLen (assocSetS (assocSetS .nil "A" (.base 1 "A")) "A" (.base 2 "A")) =
      setLen (assocSetS .nil "A" (.base 1 "A")) ∧
    setLen (assocSetS .nil "A" (.base 1 "A")) ≤ setLen .nil + 1 ∧
    lookupS (assocSetS (assocSetS .nil "A" (.base 1 "A")) "A" (.base 2 "A"))
      "A" = some (.base 2 "A") ∧
    setAdd .nil none = some .nil ∧
    listLen (listAdd .nil (some (.base 1 "A"))) = listLen .nil + 1 ∧
    listAdd .nil none = .nil :=
  c7_dedup .nil .nil (.base 1 "A") (.base 2 "A") (.base 1 "A") "A" rfl rfl

/-! Claim C8. -/

/-- C8: for every container state, `Err()` is non-nil exactly when the
container is non-empty; a fresh or freshly cleared `List`/`Set` is empty
and its `Err()` is nil. -/
theorem c8_err_empty (s : SetEntries) (l : ErrList) :
    (setErr s).isSome = !(setEmpty s) ∧
    (listErr l).isSome = !(listEmpty l) ∧
    (setErr s = none ↔ setLen s = 0) ∧
    (listErr l = none ↔ listLen l = 0) ∧
    setErr (setClear s) = none ∧ listErr (listClear l) = none ∧
    setEmpty setNew = true ∧ listEmpty listNew = true ∧
    setEmpty (setClear s) = true ∧ listEmpty (listClear l) = true := by
  refine ⟨?_, ?_, ?_, ?_, rfl, rfl, rfl, rfl, rfl, rfl⟩
  · by_cases h : setLen s = 0 <;> simp [setErr, setEmpty, h]
  · by_cases h : listLen l = 0 <;> simp [listErr, listEmpty, h]
  · by_cases h : setLen s = 0 <;> simp [setErr, h]
  · by_cases h : listLen l = 0 <;> simp [listErr, h]

/-! Claim C9. -/

/-- C9 counterexample: the plain `List.Has` (and `Set.Has`) with an extra
target matches where the safe twin's `Has` — which accepts a single
target only — cannot express the query: the safe twins do not expose the
multi-target `Has` the claim describes. -/
theorem c9_cex :
    hasManyL (.cons (.base 1 "a") .nil) (some (.base 2 "z"))
      [some (.base 1 "a")] = true ∧
    safeListHas (.cons (.base 1 "a") .nil) (some (.base 2 "z")) = false ∧
    hasManyS (.cons "a" (.base 1 "a") .nil) (some (.base 2 "z"))
      [some (.base 1 "a")] = true ∧
    safeSetHas (.cons "a" (.base 1 "a") .nil) (some (.base 2 "z")) = false := by
  decide

/-- C9 as amended: every public method of the safe twins performs the
plain container's operation with the same arguments and result (the
mutex only serialises calls), except that their `Has` accepts a single
target and behaves as the plain `Has` with no extra targets. -/
theorem c9_delegate (id : Nat) (l : ErrList) (s : SetEntries)
    (e t err : Option GoError) (msg : String) (fields args : List GoVal) :
    safeListAdd l e = listAdd l e ∧
    safeListHas l t = hasManyL l t [] ∧
    safeListErr l = listErr l ∧
    safeListEmpty l = listEmpty l ∧
    safeListNotEmpty l = listNotEmpty l ∧
    safeListClear l = listClear l ∧
    safeListLen l = listLen l ∧
    safeListNewOp id l msg fields = listNewOp id l msg fields ∧
    safeListErrorfOp id l msg args = listErrorfOp id l msg args ∧
    safeListWrapOp id l err msg fields = listWrapOp id l err msg fields ∧
    safeListWrapfOp id l err msg args = listWrapfOp id l err msg args ∧
    safeSetAdd s e = setAdd s e ∧
    safeSetHas s t = hasManyS s t [] ∧
    safeSetErr s = setErr s ∧
    safeSetEmpty s = setEmpty s ∧
    safeSetClear s = setClear s ∧
    safeSetLen s = setLen s ∧
    safeSetNewOp id s msg fields = setNewOp id s msg fields ∧
    safeSetErrorfOp id s msg args = setErrorfOp id s msg args ∧
    safeSetWrapOp id s err msg fields = setWrapOp id s err msg fields ∧
    safeSetWrapfOp id s err msg args = setWrapfOp id s err msg args :=
  ⟨rfl, rfl, rfl, rfl, rfl, rfl, rfl, rfl, rfl, rfl, rfl, rfl, rfl, rfl, rfl,
   rfl, rfl, rfl, rfl, rfl, rfl⟩

/-! Claim C2. -/

theorem strlen_pos (s : String) (h : s ≠ "") : 0 < s.length := by
  cases s with
  | mk data =>
    cases data with
    | nil => simp at h
    | cons c cs => simp [String.length]

theorem jws_cons : ∀ (m : String) (rest : List String),
    joinWithSemis (m :: rest) = m ++ semiAll rest
  | m, [] => by simp [joinWithSemis, semiAll]
  | m, r :: rs => by
    rw [show joinWithSemis (m :: r :: rs) = m ++ "; " ++ joinWithSemis (r :: rs)
          from rfl, jws_cons r rs]
    simp [semiAll, String.append_assoc]

theorem semiAll_ne (ms : List String) (h : ms ≠ []) :
    semiAll ms = "; " ++ joinWithSemis ms := by
  cases ms with
  | nil => exact absurd rfl h
  | cons m rest => rw [jws_cons]; simp [semiAll, String.append_assoc]

theorem joinBuild_pos : ∀ (errs : List (Option GoError)) (i : Nat) (b : String),
    0 < i → okMsgs errs = true →
    joinBuild errs i b = some (b ++ semiAll (acceptedO errs))
  | [], _, b, _, _ => by simp [joinBuild, acceptedO, semiAll]
  | none :: rest, i, b, hi, hok => by
    have hok2 : okMsgs rest = true := by
      simp only [okMsgs, List.all_cons, Bool.and_eq_true] at hok
      exact hok.2
    have hacc : acceptedO (none :: rest) = acceptedO rest := by simp [acceptedO]
    rw [show joinBuild (none :: rest) i b = joinBuild rest (i + 1) b from rfl,
        joinBuild_pos rest (i + 1) b (by omega) hok2, hacc]
  | some g :: rest, i, b, hi, hok => by
    simp only [okMsgs, List.all_cons, Bool.and_eq_true] at hok
    obtain ⟨hsome, hok2⟩ := hok
    obtain ⟨m, hm⟩ := Option.isSome_iff_exists.mp hsome
    by_cases hm0 : m = ""
    · subst hm0
      have hstep : joinBuild (some g :: rest) i b = joinBuild rest (i + 1) b := by
        simp [joinBuild, hm]
      have hacc : acceptedO (some g :: rest) = acceptedO rest := by
        simp [acceptedO, hm]
      rw [hstep, joinBuild_pos rest (i + 1) b (by omega) hok2, hacc]
    · have hstep : joinBuild (some g :: rest) i b =
          joinBuild rest (i + 1) (b ++ "; " ++ m) := by
        simp [joinBuild, hm, hm0, hi, String.append_assoc]
      have hacc : acceptedO (some g :: rest) = m :: acceptedO rest := by
        simp [acceptedO, hm, hm0]
      rw [hstep, joinBuild_pos rest (i + 1) _ (by omega) hok2, hacc]
      simp [semiAll, String.append_assoc]

theorem joinBuild_zero : ∀ (errs : List (Option GoError)),
    okMsgs errs = true → joinBuild errs 0 "" = some (joinedText errs)
  | [], _ => by simp [joinBuild, joinedText, acceptedO]
  | none :: rest, hok => by
    have hok2 : okMsgs rest = true := by
      simp only [okMsgs, List.all_cons, Bool.and_eq_true] at hok
      exact hok.2
    rw [show joinBuild (none :: rest) 0 "" = joinBuild rest 1 "" from rfl,
        joinBuild_pos rest 1 "" (by omega) hok2]
    have hacc : acceptedO (none :: rest) = acceptedO rest := by simp [acceptedO]
    by_cases h : acceptedO rest = []
    · simp [joinedText, hacc, h, semiAll]
    · simp [joinedText, hacc, h, firstAccO, semiAll_ne _ h]
  | some g :: rest, hok => by
    simp only [okMsgs, List.all_cons, Bool.and_eq_true] at hok
    obtain ⟨hsome, hok2⟩ := hok
    obtain ⟨m, hm⟩ := Option.isSome_iff_exists.mp hsome
    by_cases hm0 : m = ""
    · subst hm0
      have hstep : joinBuild (some g :: rest) 0 "" = joinBuild rest 1 "" := by
        simp [joinBuild, hm]
      rw [hstep, joinBuild_pos rest 1 "" (by omega) hok2]
      have hacc : acceptedO (some g :: rest) = acceptedO rest := by
        simp [acceptedO, hm]
      have hfa : firstAccO (some g :: rest) = false := by simp [firstAccO, hm]
      by_cases h : acceptedO rest = []
      · simp [joinedText, hacc, hfa, h, semiAll]
      · simp [joinedText, hacc, hfa, h, semiAll_ne _ h]
    · have hstep : joinBuild (some g :: rest) 0 "" = joinBuild rest 1 m := by
        simp [joinBuild, hm, hm0]
      rw [hstep, joinBuild_pos rest 1 m (by omega) hok2]
      have hacc : acceptedO (some g :: rest) = m :: acceptedO rest := by
        simp [acceptedO, hm, hm0]
      have hfa : firstAccO (some g :: rest) = true := by simp [firstAccO, hm, hm0]
      simp [joinedText, hacc, hfa, jws_cons]

theorem acceptedO_mem_ne (errs : List (Option GoError)) :
    ∀ m ∈ acceptedO errs, m ≠ "" := by
  intro m hm
  simp only [acceptedO, List.mem_filterMap] at hm
  obtain ⟨e, _, hbe⟩ := hm
  cases e with
  | none => simp at hbe
  | some g =>
    cases hmg : message g with
    | none => simp [hmg] at hbe
    | some m0 =>
      by_cases h0 : m0 = ""
      · simp [hmg, h0] at hbe
      · simp [hmg, h0] at hbe
        exact hbe ▸ h0

theorem joinedText_len (errs : List (Option GoError))
    (h : acceptedO errs ≠ []) : 0 < (joinedText errs).length := by
  obtain ⟨m, ms, hms⟩ : ∃ m ms, acceptedO errs = m :: ms := by
    cases hacc : acceptedO errs with
    | nil => exact absurd hacc h
    | cons m ms => exact ⟨m, ms, rfl⟩
  have hm : m ≠ "" :=
    acceptedO_mem_ne errs m (by rw [hms]; exact List.mem_cons_self m ms)
  have hmlen : 0 < m.length := strlen_pos m hm
  rw [joinedText, if_neg h, hms, jws_cons]
  simp only [String.length_append]
  omega

theorem JoinErrors_join (id : Nat) (errs : List (Option GoError))
    (hok : okMsgs errs = true) :
    JoinErrors id errs = some (if acceptedO errs = [] then none
      else some (.impl (.eNew id (joinedText errs)))) := by
  rw [JoinErrors, joinBuild_zero errs hok]
  by_cases h : acceptedO errs = []
  · simp [joinedText, h]
  · have hlen := joinedText_len errs h
    simp [h, hlen, New, buildErrorMessage]

theorem joinL_eq_joinBuild : ∀ (l : ErrList) (i : Nat) (b : String),
    joinL l i b = joinBuild ((toListL l).map some) i b
  | .nil, _, _ => rfl
  | .cons g rest, i, b => by
    cases hmg : message g with
    | none => simp [toListL, joinL, joinBuild, hmg]
    | some m =>
      by_cases hm : m = "" <;>
        simp [toListL, joinL, joinBuild, hmg, hm, joinL_eq_joinBuild rest]

theorem message_listC (l : ErrList)
    (hok : okMsgs ((toListL l).map some) = true)
    (hacc : acceptedO ((toListL l).map some) ≠ []) :
    message (.listC l) = some (joinedText ((toListL l).map some)) := by
  cases l with
  | nil => simp [toListL, acceptedO] at hacc
  | cons g rest =>
    have h1 : message (.listC (.cons g rest)) =
        match joinL (.cons g rest) 0 "" with
        | none => none
        | some b => if b.length > 0 then some b else none := by
      simp [message]
    rw [h1, joinL_eq_joinBuild, joinBuild_zero _ hok]
    simp [joinedText_len _ hacc]

/-- C2 counterexample: `JoinErrors` emits the separator based on the
positional index, not between two accepted messages — joining a nil
error followed by an error with message `"x"` yields the message
`"; x"` (a leading separator), not `"x"`. -/
theorem c2_cex :
    JoinErrors 7 [none, some (.base 1 "x")] =
      some (some (.impl (.eNew 7 "; x"))) ∧ ("; x" : String) ≠ "x" := by
  decide

/-- C2 as amended: `JoinErrors` skips nil errors and errors with empty
rendered messages, returns nil when no message is accepted, and otherwise
builds a fresh error via `New` whose text is the `"; "`-join of the
accepted messages with a leading `"; "` exactly when the first accepted
message does not sit at slice index zero; a `List` composite's message is
the same join of its current member messages (so it too can carry a
leading separator when earlier members render empty). -/
theorem c2_join (id : Nat) (errs : List (Option GoError)) (l : ErrList)
    (hok : okMsgs errs = true)
    (hokl : okMsgs ((toListL l).map some) = true)
    (haccl : acceptedO ((toListL l).map some) ≠ []) :
    JoinErrors id errs = some (if acceptedO errs = [] then none
      else some (.impl (.eNew id (joinedText errs)))) ∧
    message (.listC l) = some (joinedText ((toListL l).map some)) :=
  ⟨JoinErrors_join id errs hok, message_listC l hokl haccl⟩

/-- Witness for C2 at concrete inputs. -/
theorem c2_join_witness :
    JoinErrors 3 [some (.base 1 "x"), none, some (.base 2 "y")] =
      some (if acceptedO [some (.base 1 "x"), none, some (.base 2 "y")] = []
        then none
        else some (.impl (.eNew 3
          (joinedText [some (.base 1 "x"), none, some (.base 2 "y")])))) ∧
    message (.listC (.cons (.base 1 "x") (.cons (.base 2 "y") .nil))) =
      some (joinedText
        ((toListL (.cons (.base 1 "x") (.cons (.base 2 "y") .nil))).map some)) :=
  c2_join 3 [some (.base 1 "x"), none, some (.base 2 "y")]
    (.cons (.base 1 "x") (.cons (.base 2 "y") .nil))
    (by decide) (by decide) (by decide)

/-! Claim C4. -/

theorem hasManyL_nil_extra : ∀ (l : ErrList) (t : Option GoError),
    hasManyL l t [] = hasOneL l t
  | .nil, _ => rfl
  | .cons g rest, t => by
    simp [hasManyL, hasOneL, hasManyL_nil_extra rest t]

theorem hasManyS_nil_extra : ∀ (s : SetEntries) (t : Option GoError),
    hasManyS s t [] = hasOneS s t
  | .nil, _ => rfl
  | .cons k g rest, t => by
    simp [hasManyS, hasOneS, hasManyS_nil_extra rest t]

theorem unwrapE_impl (t : GoError) : unwrapE (.impl t) = t := rfl

theorem Is_single (g : GoError) (t : Option GoError) :
    Is (some g) t [] = isOne g t := by
  cases g <;> simp [Is, isOne, hasManyL_nil_extra, hasManyS_nil_extra, unwrapOpt]

theorem hasManyS_iff : ∀ (s : SetEntries) (t : Option GoError)
    (ts : List (Option GoError)),
    hasManyS s t ts = true ↔
      ∃ p ∈ toListS s, ∃ t2 ∈ t :: ts, isOne p.2 t2 = true
  | .nil, t, ts => by simp [hasManyS, toListS]
  | .cons k g rest, t, ts => by
    simp only [hasManyS, Bool.or_eq_true, List.any_eq_true, toListS,
      List.exists_mem_cons_iff, hasManyS_iff rest t ts]

theorem hasManyL_iff : ∀ (l : ErrList) (t : Option GoError)
    (ts : List (Option GoError)),
    hasManyL l t ts = true ↔
      ∃ g ∈ toListL l, ∃ t2 ∈ t :: ts, isOne g t2 = true
  | .nil, t, ts => by simp [hasManyL, toListL]
  | .cons g rest, t, ts => by
    simp only [hasManyL, Bool.or_eq_true, List.any_eq_true, toListL,
      List.exists_mem_cons_iff, hasManyL_iff rest t ts]

/-- C4 counterexample: for an empty `Set`, `Err()` is nil and
`Is(nil, nil)` is true although the container has no members at all, so
the membership-iff fails on the empty container with a nil target. -/
theorem c4_cex :
    ¬ (Is (setErr setNew) none [] = true ↔
      ∃ m ∈ (toListS setNew).map Prod.snd,
        ∃ t2 ∈ [(none : Option GoError)], Is (some m) t2 [] = true) := by
  decide

/-- C4 as amended: for every non-empty `Set` (and likewise `List`),
`Is` on the composite returned by `Err()` is true iff some member
matches some target among the first and the extras (the OR over members
and targets), and on a composite first argument `Is` delegates to the
container's `Has`. -/
theorem c4_has (s : SetEntries) (l : ErrList) (t : Option GoError)
    (ts : List (Option GoError)) (hs : setLen s ≠ 0) (hl : listLen l ≠ 0) :
    (Is (setErr s) t ts = true ↔
      ∃ m ∈ (toListS s).map Prod.snd, ∃ t2 ∈ t :: ts,
        Is (some m) t2 [] = true) ∧
    (Is (listErr l) t ts = true ↔
      ∃ m ∈ toListL l, ∃ t2 ∈ t :: ts, Is (some m) t2 [] = true) ∧
    Is (some (.setC s)) t ts = hasManyS s t ts ∧
    Is (some (.listC l)) t ts = hasManyL l t ts := by
  refine ⟨?_, ?_, rfl, rfl⟩
  · rw [setErr, if_neg hs,
      show Is (some (.setC s)) t ts = hasManyS s t ts from rfl, hasManyS_iff]
    simp only [List.mem_map, Is_single]
    constructor
    · rintro ⟨p, hp, ht⟩
      exact ⟨p.2, ⟨p, hp, rfl⟩, ht⟩
    · rintro ⟨m, ⟨p, hp, he⟩, ht⟩
      exact ⟨p, hp, he ▸ ht⟩
  · rw [listErr, if_neg hl,
      show Is (some (.listC l)) t ts = hasManyL l t ts from rfl, hasManyL_iff]
    simp only [Is_single]

/-- Witness for C4 at concrete inputs. -/
theorem c4_has_witness :
    (Is (setErr (.cons "a" (.base 1 "a") .nil)) (some (.base 1 "a")) [] = true ↔
      ∃ m ∈ (toListS (.cons "a" (.base 1 "a") .nil)).map Prod.snd,
        ∃ t2 ∈ [some (GoError.base 1 "a")], Is (some m) t2 [] = true) ∧
    (Is (listErr (.cons (.base 1 "a") .nil)) (some (.base 1 "a")) [] = true ↔
      ∃ m ∈ toListL (.cons (.base 1 "a") .nil),
        ∃ t2 ∈ [some (GoError.base 1 "a")], Is (some m) t2 [] = true) ∧
    Is (some (.setC (.cons "a" (.base 1 "a") .nil))) (some (.base 1 "a")) [] =
      hasManyS (.cons "a" (.base 1 "a") .nil) (some (.base 1 "a")) [] ∧
    Is (some (.listC (.cons (.base 1 "a") .nil))) (some (.base 1 "a")) [] =
      hasManyL (.cons (.base 1 "a") .nil) (some (.base 1 "a")) [] :=
  c4_has (.cons "a" (.base 1 "a") .nil) (.cons (.base 1 "a") .nil)
    (some (.base 1 "a")) [] (by decide) (by decide)

/-! Claim C10. -/

theorem self_mem_erisChain (g : GoError) : g ∈ erisChain g := by
  cases g <;> simp [erisChain]

theorem isOne_generic (g : GoError) (t : Option GoError)
    (h : isComposite g = false) :
    isOne g t = erisIs (some (unwrapE g)) (unwrapOpt t) := by
  cases g <;> simp_all [isOne, isComposite]

/-- C10: joining two errors builds a fresh root from the joined text via
`New`, wrapping neither input, so the joined error matches neither input
under `Is`; a `List` composite over the same two errors still matches
its member under `Is` via the `Has` delegation.  The freshness of the
stack identity `id` (guaranteed by allocation in the code) is the
hypothesis that `id` is not the root identity of either input. -/
theorem c10_join_fresh (id : Nat) (a b : GoError) (ma mb : String)
    (hab : a ≠ b)
    (hma : message a = some ma) (hmb : message b = some mb)
    (hma0 : ma ≠ "") (hmb0 : mb ≠ "")
    (hfa : ∀ x : String, unwrapE a ≠ .eNew id x)
    (hfb : ∀ x : String, unwrapE b ≠ .eNew id x)
    (hca : isComposite a = false) :
    JoinErrors id [some a, some b] =
      some (some (.impl (.eNew id (ma ++ "; " ++ mb)))) ∧
    Is (some (.impl (.eNew id (ma ++ "; " ++ mb)))) (some a) [] = false ∧
    Is (some (.impl (.eNew id (ma ++ "; " ++ mb)))) (some b) [] = false ∧
    Is (listErr (.cons a (.cons b .nil))) (some a) [] = true := by
  refine ⟨?_, ?_, ?_, ?_⟩
  · have h1 : joinBuild [some a, some b] 0 "" = some (ma ++ "; " ++ mb) := by
      simp [joinBuild, hma, hmb, hma0, hmb0, String.append_assoc]
    have hlen2 : ("; " : String).length = 2 := rfl
    have hlen : 0 < (ma ++ "; " ++ mb).length := by
      simp [String.length_append, hlen2]
    rw [JoinErrors, h1]
    simp only [Option.map_some', if_pos hlen]
    simp [New, buildErrorMessage]
  · simp [Is, erisIs, unwrapOpt, unwrapE_impl, erisChain,
      hfa (ma ++ "; " ++ mb)]
  · simp [Is, erisIs, unwrapOpt, unwrapE_impl, erisChain,
      hfb (ma ++ "; " ++ mb)]
  · have hl : listErr (.cons a (.cons b .nil)) =
        some (.listC (.cons a (.cons b .nil))) := by
      simp [listErr, listLen, toListL]
    rw [hl, show Is (some (.listC (.cons a (.cons b .nil)))) (some a) [] =
        hasManyL (.cons a (.cons b .nil)) (some a) [] from rfl]
    simp [hasManyL, isOne_generic a (some a) hca, erisIs, unwrapOpt]
    exact Or.inl (self_mem_erisChain (unwrapE a))

/-- Witness for C10 at concrete inputs. -/
theorem c10_join_fresh_witness :
    JoinErrors 0 [some (.base 1 "x"), some (.base 2 "y")] =
      some (some (.impl (.eNew 0 ("x" ++ "; " ++ "y")))) ∧
    Is (some (.impl (.eNew 0 ("x" ++ "; " ++ "y"))))
      (some (.base 1 "x")) [] = false ∧
    Is (some (.impl (.eNew 0 ("x" ++ "; " ++ "y"))))
      (some (.base 2 "y")) [] = false ∧
    Is (listErr (.cons (.base 1 "x") (.cons (.base 2 "y") .nil)))
      (some (.base 1 "x")) [] = true :=
  c10_join_fresh 0 (.base 1 "x") (.base 2 "y") "x" "y" (by decide) rfl rfl
    (by decide) (by decide) (fun x => by simp [unwrapE])
    (fun x => by simp [unwrapE]) rfl

end errm
